import Mathlib

/-!
  # Verification of the ZenML stack-store and global-configuration core

  A shallow embedding of the stack/profile persistence subsystem:

  * `StorePrims` — the backend-primitive interface of
    `stack_stores/base_stack_store.py`, with the shared algorithms
    (`register_stack`, `deregister_stack`, `deregister_stack_component`,
    `get_stack_component`) defined once over the primitives, exactly as the
    Python base class defines them over its abstract methods.
  * `LocalStore` / `LocalPrims` — the file-backed store of
    `stack_stores/local_stack_store.py`: an in-memory index document
    (active stack name, stack-name → configuration map, (type, name) →
    flavor registry) plus one payload file per component.
  * `SqlStore` / `SqlPrims` — the relational store of
    `stack_stores/sql_stack_store.py`: stack rows, component rows, join
    rows, and the singleton config row holding the active-stack pointer.
  * `migrate_config`, profile operations and the `__getattribute__`
    environment-override read of `config/global_config.py`.

  Python exceptions are modelled by `Except Err`; every operation returns
  its result together with the post-state, and an exception carries the
  state as mutated so far (side effects performed before a raise persist,
  exactly as in Python).
-/

/-- The component-type enumeration (`zenml.enums.StackComponentType`).
Modelled from the spec: the enum module is not part of the analysed
sources; §3 lists "orchestrator, artifact store, metadata store, secrets
manager, …" and the configuration also carries a container registry slot. -/
inductive StackComponentType
  | orchestrator
  | metadata_store
  | artifact_store
  | container_registry
  | secrets_manager
deriving DecidableEq, Repr

/-- The fixed iteration order of the component-type slots, standing for the
declaration order of the fields of the pydantic `StackConfiguration` model
(`dict().items()` iterates fields in declaration order). -/
def StackComponentType.all : List StackComponentType :=
  [.orchestrator, .metadata_store, .artifact_store, .container_registry,
   .secrets_manager]

/-- The exceptions the embedded code raises.  `keyError`, `valueError` and
`runtimeError` are the Python builtins; `stackExists` and `componentExists`
are `StackExistsError` and `StackComponentExistsError` (both Conflict);
`ioError` stands for a failed payload-file read; `integrityError` and
`noResultFound` are the database errors raised by a duplicate-key commit
and by `.one()` on an empty result. -/
inductive Err
  | keyError
  | stackExists
  | componentExists
  | valueError
  | runtimeError
  | ioError
  | integrityError
  | noResultFound
deriving DecidableEq, Repr

/-- A stack's configuration: the fixed-size mapping from component type to
component name. Modelled from the spec: `stack_stores/models.py` is not
part of the analysed sources; §3 describes "a fixed-size mapping from
component-type … to a component name (at most one per type)". -/
structure StackConfiguration where
  orchestrator : Option String := none
  metadata_store : Option String := none
  artifact_store : Option String := none
  container_registry : Option String := none
  secrets_manager : Option String := none
deriving DecidableEq, Repr

/-- Read the slot of a stack configuration for a component type. -/
def getComp (cfg : StackConfiguration) : StackComponentType → Option String
  | .orchestrator => cfg.orchestrator
  | .metadata_store => cfg.metadata_store
  | .artifact_store => cfg.artifact_store
  | .container_registry => cfg.container_registry
  | .secrets_manager => cfg.secrets_manager

/-- Write the slot of a stack configuration for a component type. -/
def setComp (cfg : StackConfiguration) :
    StackComponentType → Option String → StackConfiguration
  | .orchestrator, v => { cfg with orchestrator := v }
  | .metadata_store, v => { cfg with metadata_store := v }
  | .artifact_store, v => { cfg with artifact_store := v }
  | .container_registry, v => { cfg with container_registry := v }
  | .secrets_manager, v => { cfg with secrets_manager := v }

/-- Build a `StackConfiguration` from (type, name) pairs —
`StackConfiguration(**{t.value: n for t, n in pairs})`; later pairs of the
same type overwrite earlier ones, as in a Python dict comprehension. -/
def mkStackConfiguration (pairs : List (StackComponentType × String)) :
    StackConfiguration :=
  pairs.foldl (fun cfg p => setComp cfg p.1 (some p.2)) {}

/-- Whether a stack configuration references component (type, name).
Modelled from the spec: `StackConfiguration.contains_component` lives in
the absent `models.py`; §4.3 reads "if any stack references this
(type,name)". -/
def containsComponent (cfg : StackConfiguration) (t : StackComponentType)
    (n : String) : Bool :=
  decide (getComp cfg t = some n)

/-- A component's opaque configuration payload "embeds a stable identity
token" (spec §3). Modelled from the spec: the base64/YAML codec around the
payload is external library code, so the payload is modelled as carrying
the embedded token, extracted by `uuid_of_payload`. -/
def uuid_of_payload (p : String) : String := p

/-- `StackComponentConfiguration`: type, name, flavor, identity token, and
the opaque payload. Modelled from the spec (the pydantic model lives in
the absent `models.py`); the fields are the ones the analysed code reads. -/
structure StackComponentConfiguration where
  type : StackComponentType
  flavor : String
  name : String
  uuid : String
  config : String
deriving DecidableEq, Repr

/-- `StackWrapper`: a named stack together with its component records. -/
structure StackWrapper where
  name : String
  components : List StackComponentConfiguration
deriving DecidableEq, Repr

/-! ## Association-list helpers (Python dict / keyed-row semantics) -/

/-- Dict lookup on a string-keyed association list. -/
def findKey {α : Type} (l : List (String × α)) (k : String) : Option α :=
  match l with
  | [] => none
  | e :: rest => if e.1 = k then some e.2 else findKey rest k

/-- Dict assignment `d[k] = v`: replace the existing entry or append. -/
def upsertKey {α : Type} (l : List (String × α)) (k : String) (v : α) :
    List (String × α) :=
  match l with
  | [] => [(k, v)]
  | e :: rest => if e.1 = k then (k, v) :: rest else e :: upsertKey rest k v

/-- Dict deletion `del d[k]` (on a duplicate-free list). -/
def removeKey {α : Type} (l : List (String × α)) (k : String) :
    List (String × α) :=
  l.filter (fun e => decide (e.1 ≠ k))

/-- Lookup on a (component type, name)-keyed association list. -/
def findComp {α : Type} (l : List (StackComponentType × String × α))
    (t : StackComponentType) (n : String) : Option α :=
  match l with
  | [] => none
  | e :: rest =>
    if e.1 = t ∧ e.2.1 = n then some e.2.2 else findComp rest t n

/-- Assignment on a (component type, name)-keyed association list. -/
def upsertComp {α : Type} (l : List (StackComponentType × String × α))
    (t : StackComponentType) (n : String) (v : α) :
    List (StackComponentType × String × α) :=
  match l with
  | [] => [(t, n, v)]
  | e :: rest =>
    if e.1 = t ∧ e.2.1 = n then (t, n, v) :: rest
    else e :: upsertComp rest t n v

/-- Deletion on a (component type, name)-keyed association list. -/
def removeComp {α : Type} (l : List (StackComponentType × String × α))
    (t : StackComponentType) (n : String) :
    List (StackComponentType × String × α) :=
  l.filter (fun e => !decide (e.1 = t ∧ e.2.1 = n))

theorem findKey_upsertKey_self {α : Type} (l : List (String × α)) (k : String)
    (v : α) : findKey (upsertKey l k v) k = some v := by
  induction l with
  | nil => simp [upsertKey, findKey]
  | cons e rest ih =>
    by_cases hek : e.1 = k
    · simp [upsertKey, hek, findKey]
    · simp [upsertKey, hek, findKey, ih]

theorem findKey_upsertKey_ne {α : Type} (l : List (String × α))
    (k k' : String) (v : α) (h : k' ≠ k) :
    findKey (upsertKey l k v) k' = findKey l k' := by
  have h1 : ¬ k = k' := fun hh => h hh.symm
  induction l with
  | nil => simp [upsertKey, findKey, h1]
  | cons e rest ih =>
    by_cases hek : e.1 = k
    · have h2 : ¬ e.1 = k' := by rw [hek]; exact h1
      simp [upsertKey, hek, findKey, h1, h2]
    · by_cases h2 : e.1 = k'
      · simp only [upsertKey]
        rw [if_neg hek]
        simp [findKey, h2]
      · simp only [upsertKey]
        rw [if_neg hek]
        simp [findKey, h2, ih]

theorem findComp_upsertComp_self {α : Type}
    (l : List (StackComponentType × String × α)) (t : StackComponentType)
    (n : String) (v : α) : findComp (upsertComp l t n v) t n = some v := by
  induction l with
  | nil => simp [upsertComp, findComp]
  | cons e rest ih =>
    by_cases hek : e.1 = t ∧ e.2.1 = n
    · simp [upsertComp, hek, findComp]
    · simp [upsertComp, hek, findComp, ih]

theorem findComp_upsertComp_ne {α : Type}
    (l : List (StackComponentType × String × α)) (t t' : StackComponentType)
    (n n' : String) (v : α) (h : ¬ (t' = t ∧ n' = n)) :
    findComp (upsertComp l t n v) t' n' = findComp l t' n' := by
  have h1 : ¬ (t = t' ∧ n = n') := fun hh => h ⟨hh.1.symm, hh.2.symm⟩
  induction l with
  | nil => simp [upsertComp, findComp, h1]
  | cons e rest ih =>
    by_cases hek : e.1 = t ∧ e.2.1 = n
    · have h2 : ¬ (e.1 = t' ∧ e.2.1 = n') := fun hh =>
        h1 ⟨hek.1 ▸ hh.1, hek.2 ▸ hh.2⟩
      simp [upsertComp, hek, findComp, h1, h2]
    · by_cases h2 : e.1 = t' ∧ e.2.1 = n'
      · simp only [upsertComp]
        rw [if_neg hek]
        simp [findComp, h2]
      · simp only [upsertComp]
        rw [if_neg hek]
        simp [findComp, h2, ih]

/-! ## The backend-primitive interface (`BaseStackStore` abstract methods)

An operation takes the store state and returns its result together with the
post-state; `.error` results model raised exceptions, and the state paired
with an error is the state as mutated before the raise. -/

/-- The backend primitives `BaseStackStore` requires of an implementation
(`active_stack_name`, `get_stack_configuration`, `stack_configurations`,
`register_stack_component`, `_create_stack`, `_delete_stack`,
`_get_component_flavor_and_config`, `_get_stack_component_names`,
`_delete_stack_component`). -/
structure StorePrims (σ : Type) where
  active_stack_name : σ → Except Err String
  get_stack_configuration : σ → String → Except Err StackConfiguration
  stack_configurations : σ → List (String × StackConfiguration)
  register_stack_component :
    σ → StackComponentConfiguration → Except Err Unit × σ
  create_stack : σ → String → StackConfiguration → Except Err Unit × σ
  delete_stack : σ → String → Except Err Unit × σ
  get_component_flavor_and_config :
    σ → StackComponentType → String → Except Err (String × String)
  get_stack_component_names : σ → StackComponentType → List String
  delete_stack_component : σ → StackComponentType → String → Except Err Unit × σ

/-! ## Shared algorithms of `BaseStackStore` (written once over the primitives) -/

/-- `BaseStackStore.get_stack_component`: fetch flavor and payload through
the primitive, decode the identity token out of the payload, and wrap the
result; a missing component propagates as `KeyError`. -/
def get_stack_component {σ : Type} (P : StorePrims σ) (s : σ)
    (t : StackComponentType) (n : String) :
    Except Err StackComponentConfiguration :=
  match P.get_component_flavor_and_config s t n with
  | .error e => .error e
  | .ok fc =>
    .ok { type := t, flavor := fc.1, name := n, uuid := uuid_of_payload fc.2,
          config := fc.2 }

/-- The `__check_component` closure of `BaseStackStore.register_stack`: an
existing (type, name) record with a different identity token is a Conflict;
a matching token is a no-op; an absent record is registered through the
low-level primitive. Returns the component's (type, name) pair. -/
def check_component {σ : Type} (P : StorePrims σ)
    (c : StackComponentConfiguration) (s : σ) :
    Except Err (StackComponentType × String) × σ :=
  match get_stack_component P s c.type c.name with
  | .ok existing =>
    if existing.uuid ≠ c.uuid then (.error .componentExists, s)
    else (.ok (c.type, c.name), s)
  | .error .keyError =>
    match P.register_stack_component s c with
    | (.ok _, s1) => (.ok (c.type, c.name), s1)
    | (.error e, s1) => (.error e, s1)
  | .error e => (.error e, s)

/-- `map(__check_component, stack.components)` consumed left to right by the
dict comprehension in `register_stack`; stops at the first raise, keeping
the mutations made so far. -/
def check_components {σ : Type} (P : StorePrims σ) :
    List StackComponentConfiguration → σ →
    Except Err (List (StackComponentType × String)) × σ
  | [], s => (.ok [], s)
  | c :: rest, s =>
    match check_component P c s with
    | (.ok p, s1) =>
      match check_components P rest s1 with
      | (.ok ps, s2) => (.ok (p :: ps), s2)
      | (.error e, s2) => (.error e, s2)
    | (.error e, s1) => (.error e, s1)

/-- The component records of `BaseStackStore._stack_from_configuration`:
one `get_stack_component` per non-empty slot, in field order. -/
def stack_components_of {σ : Type} (P : StorePrims σ) (s : σ)
    (conf : StackConfiguration) :
    List StackComponentType → Except Err (List StackComponentConfiguration)
  | [] => .ok []
  | t :: rest =>
    match getComp conf t with
    | none => stack_components_of P s conf rest
    | some n =>
      match get_stack_component P s t n with
      | .error e => .error e
      | .ok c =>
        match stack_components_of P s conf rest with
        | .error e => .error e
        | .ok cs => .ok (c :: cs)

/-- `BaseStackStore._stack_from_configuration`. -/
def stack_from_configuration {σ : Type} (P : StorePrims σ) (s : σ)
    (name : String) (conf : StackConfiguration) : Except Err StackWrapper :=
  match stack_components_of P s conf StackComponentType.all with
  | .error e => .error e
  | .ok cs => .ok { name := name, components := cs }

/-- `BaseStackStore.get_stack`. -/
def get_stack {σ : Type} (P : StorePrims σ) (s : σ) (name : String) :
    Except Err StackWrapper :=
  match P.get_stack_configuration s name with
  | .error e => .error e
  | .ok conf => stack_from_configuration P s name conf

/-- `BaseStackStore.register_stack`: Conflict if `get_stack` finds the name
(only `KeyError` is caught); check/register each component; build the
type-to-name mapping and persist it through `_create_stack`; return
per-type flavor metadata. -/
def register_stack {σ : Type} (P : StorePrims σ) (stack : StackWrapper)
    (s : σ) : Except Err (List (StackComponentType × String)) × σ :=
  match get_stack P s stack.name with
  | .ok _ => (.error .stackExists, s)
  | .error .keyError =>
    match check_components P stack.components s with
    | (.ok pairs, s1) =>
      match P.create_stack s1 stack.name (mkStackConfiguration pairs) with
      | (.ok _, s2) =>
        (.ok (stack.components.map (fun c => (c.type, c.flavor))), s2)
      | (.error e, s2) => (.error e, s2)
    | (.error e, s1) => (.error e, s1)
  | .error e => (.error e, s)

/-- `BaseStackStore.deregister_stack`: `ValueError` on the active stack
(the active-name read itself may raise), else `_delete_stack`. -/
def deregister_stack {σ : Type} (P : StorePrims σ) (name : String) (s : σ) :
    Except Err Unit × σ :=
  match P.active_stack_name s with
  | .error e => (.error e, s)
  | .ok active =>
    if name = active then (.error .valueError, s)
    else P.delete_stack s name

/-- `BaseStackStore.deregister_stack_component`: scan every stack
configuration and fail with `ValueError` if any references (type, name),
else `_delete_stack_component`. -/
def deregister_stack_component {σ : Type} (P : StorePrims σ)
    (t : StackComponentType) (n : String) (s : σ) : Except Err Unit × σ :=
  if (P.stack_configurations s).any (fun p => containsComponent p.2 t n)
  then (.error .valueError, s)
  else P.delete_stack_component s t n

/-! ## `LocalStackStore` (file-based backend) -/

/-- The durable state of `LocalStackStore`: the index document
(`StackStoreModel`: active stack name, stack-name → configuration map,
per-(type, name) flavor registry) plus one payload file per component at
`<type-plural>/<name>.yaml`, here keyed by (type, name).  The source's
`stacks` dict is the `stackMap` field (`stacks` is unavailable as a field
name here). -/
structure LocalStore where
  active_stack_name : Option String
  stackMap : List (String × StackConfiguration)
  stack_components : List (StackComponentType × String × String)
  component_files : List (StackComponentType × String × String)
deriving DecidableEq, Repr

/-- `LocalStackStore.active_stack_name`: `RuntimeError` when the stored
name is falsy (absent or empty). -/
def localActiveStackName (s : LocalStore) : Except Err String :=
  match s.active_stack_name with
  | none => .error .runtimeError
  | some n => if n = "" then .error .runtimeError else .ok n

/-- `LocalStackStore.get_stack_configuration`: dict lookup, `KeyError`
when absent. -/
def localGetStackConfiguration (s : LocalStore) (name : String) :
    Except Err StackConfiguration :=
  match findKey s.stackMap name with
  | none => .error .keyError
  | some c => .ok c

/-- `LocalStackStore.stack_configurations`: a copy of the stacks dict. -/
def localStackConfigurations (s : LocalStore) :
    List (String × StackConfiguration) :=
  s.stackMap

/-- `LocalStackStore.register_stack_component`: Conflict when (type, name)
is already registered; otherwise write the payload file, add the
(name → flavor) registry entry and persist the index document. -/
def localRegisterComponent (s : LocalStore)
    (c : StackComponentConfiguration) : Except Err Unit × LocalStore :=
  match findComp s.stack_components c.type c.name with
  | some _ => (.error .componentExists, s)
  | none =>
    (.ok (), { s with
        component_files := upsertComp s.component_files c.type c.name c.config,
        stack_components :=
          upsertComp s.stack_components c.type c.name c.flavor })

/-- `LocalStackStore._create_stack`: `stacks[name] = configuration` and
rewrite the index document. -/
def localCreateStack (s : LocalStore) (name : String)
    (conf : StackConfiguration) : Except Err Unit × LocalStore :=
  (.ok (), { s with stackMap := upsertKey s.stackMap name conf })

/-- `LocalStackStore._delete_stack`: `del stacks[name]`, with the
`KeyError` of a missing name caught and only logged. -/
def localDeleteStack (s : LocalStore) (name : String) :
    Except Err Unit × LocalStore :=
  match findKey s.stackMap name with
  | some _ => (.ok (), { s with stackMap := removeKey s.stackMap name })
  | none => (.ok (), s)

/-- `LocalStackStore._get_component_flavor_and_config`: `KeyError` when the
registry has no (type, name) entry; otherwise read the payload file (a
missing file is a propagated I/O failure) and return flavor and payload. -/
def localGetFlavorConfig (s : LocalStore) (t : StackComponentType)
    (n : String) : Except Err (String × String) :=
  match findComp s.stack_components t n with
  | none => .error .keyError
  | some flavor =>
    match findComp s.component_files t n with
    | none => .error .ioError
    | some payload => .ok (flavor, payload)

/-- `LocalStackStore._get_stack_component_names`. -/
def localGetComponentNames (s : LocalStore) (t : StackComponentType) :
    List String :=
  (s.stack_components.filter (fun e => decide (e.1 = t))).map (fun e => e.2.1)

/-- `LocalStackStore._delete_stack_component`: remove the registry entry
(a missing entry is only logged) and remove the payload file if present. -/
def localDeleteComponent (s : LocalStore) (t : StackComponentType)
    (n : String) : Except Err Unit × LocalStore :=
  (.ok (), { s with
      stack_components := removeComp s.stack_components t n,
      component_files := removeComp s.component_files t n })

/-- The `LocalStackStore` backend as an implementation of the contract. -/
def LocalPrims : StorePrims LocalStore where
  active_stack_name := localActiveStackName
  get_stack_configuration := localGetStackConfiguration
  stack_configurations := localStackConfigurations
  register_stack_component := localRegisterComponent
  create_stack := localCreateStack
  delete_stack := localDeleteStack
  get_component_flavor_and_config := localGetFlavorConfig
  get_stack_component_names := localGetComponentNames
  delete_stack_component := localDeleteComponent

/-! ## `SqlStackStore` (relational backend) -/

/-- The durable state of `SqlStackStore`: `ZenStack` rows (the name column
is the key; creator and timestamp are not modelled), `ZenStackComponent`
rows (type, name, flavor, configuration), `ZenStackDefinition` join rows
(stack name, component type, component name), and the active-stack pointer
of the singleton `ZenConfig` row. -/
structure SqlStore where
  zen_stacks : List String
  zen_components : List (StackComponentType × String × String × String)
  zen_stack_definitions : List (String × StackComponentType × String)
  active_stack : Option String
deriving DecidableEq, Repr

/-- `SqlStackStore.active_stack_name`: `RuntimeError` when the singleton
config row's pointer is NULL. -/
def sqlActiveStackName (s : SqlStore) : Except Err String :=
  match s.active_stack with
  | none => .error .runtimeError
  | some n => .ok n

/-- `SqlStackStore.get_stack_configuration`: `KeyError` when no stack row
has the name; otherwise join the stack's definition rows with the component
rows — the source's join condition matches on component *name* only (its
type clause compares `ZenStackDefinition.component_type` with itself) — and
build the configuration from the joined components' (type, name). -/
def sqlGetStackConfiguration (s : SqlStore) (name : String) :
    Except Err StackConfiguration :=
  if s.zen_stacks.any (fun m => decide (m = name)) then
    .ok (mkStackConfiguration
      (((s.zen_stack_definitions.filter (fun d => decide (d.1 = name))).flatMap
        (fun d => (s.zen_components.filter
            (fun c => decide (c.2.1 = d.2.2))).map
          (fun c => (c.1, c.2.1))))))
  else .error .keyError

/-- `SqlStackStore.stack_configurations`: one configuration per stack row. -/
def sqlStackConfigurations (s : SqlStore) :
    List (String × StackConfiguration) :=
  s.zen_stacks.filterMap (fun n =>
    match sqlGetStackConfiguration s n with
    | .ok c => some (n, c)
    | .error _ => none)

/-- `SqlStackStore.register_stack_component`: Conflict when a component row
with the same name and type exists; otherwise insert the row. -/
def sqlRegisterComponent (s : SqlStore) (c : StackComponentConfiguration) :
    Except Err Unit × SqlStore :=
  match s.zen_components.find?
      (fun e => decide (e.2.1 = c.name) && decide (e.1 = c.type)) with
  | some _ => (.error .componentExists, s)
  | none =>
    (.ok (), { s with
        zen_components :=
          s.zen_components ++ [(c.type, c.name, c.flavor, c.config)] })

/-- `SqlStackStore._create_stack`: insert the stack row and one definition
row per non-empty slot, in one transaction (a duplicate primary key makes
the commit fail with the whole transaction rolled back). -/
def sqlCreateStack (s : SqlStore) (name : String)
    (conf : StackConfiguration) : Except Err Unit × SqlStore :=
  if s.zen_stacks.any (fun m => decide (m = name)) then
    (.error .integrityError, s)
  else
    (.ok (), { s with
        zen_stacks := s.zen_stacks ++ [name],
        zen_stack_definitions := s.zen_stack_definitions ++
          StackComponentType.all.filterMap
            (fun t => (getComp conf t).map (fun n => (name, t, n))) })

/-- `SqlStackStore._delete_stack`: select the stack row with `.one()`
(failing when absent) and delete it.  Only the `ZenStack` row is deleted:
the stack's `ZenStackDefinition` join rows are left in place. -/
def sqlDeleteStack (s : SqlStore) (name : String) :
    Except Err Unit × SqlStore :=
  if s.zen_stacks.any (fun m => decide (m = name)) then
    (.ok (), { s with
        zen_stacks := s.zen_stacks.filter (fun m => !decide (m = name)) })
  else (.error .noResultFound, s)

/-- `SqlStackStore._get_component_flavor_and_config`: `KeyError` when no
component row matches (type, name). -/
def sqlGetFlavorConfig (s : SqlStore) (t : StackComponentType) (n : String) :
    Except Err (String × String) :=
  match s.zen_components.find?
      (fun e => decide (e.1 = t) && decide (e.2.1 = n)) with
  | none => .error .keyError
  | some e => .ok (e.2.2.1, e.2.2.2)

/-- `SqlStackStore._get_stack_component_names`. -/
def sqlGetComponentNames (s : SqlStore) (t : StackComponentType) :
    List String :=
  (s.zen_components.filter (fun e => decide (e.1 = t))).map (fun e => e.2.1)

/-- `SqlStackStore._delete_stack_component`: delete the component row when
present; a missing row is only logged. -/
def sqlDeleteComponent (s : SqlStore) (t : StackComponentType) (n : String) :
    Except Err Unit × SqlStore :=
  (.ok (), { s with
      zen_components := s.zen_components.filter
        (fun e => !(decide (e.1 = t) && decide (e.2.1 = n))) })

/-- The `SqlStackStore` backend as an implementation of the contract. -/
def SqlPrims : StorePrims SqlStore where
  active_stack_name := sqlActiveStackName
  get_stack_configuration := sqlGetStackConfiguration
  stack_configurations := sqlStackConfigurations
  register_stack_component := sqlRegisterComponent
  create_stack := sqlCreateStack
  delete_stack := sqlDeleteStack
  get_component_flavor_and_config := sqlGetFlavorConfig
  get_stack_component_names := sqlGetComponentNames
  delete_stack_component := sqlDeleteComponent

/-! ## `GlobalConfig` (`config/global_config.py`) -/

/-- A parsed semantic version (`semver.VersionInfo`; prerelease/build parts
are not exercised by the embedded code). -/
structure SemVer where
  major : Nat
  minor : Nat
  patch : Nat
deriving DecidableEq, Repr

/-- Semantic-version strict order, major then minor then patch. -/
def semverLt (a b : SemVer) : Bool :=
  decide (a.major < b.major) ||
    (decide (a.major = b.major) &&
      (decide (a.minor < b.minor) ||
        (decide (a.minor = b.minor) && decide (a.patch < b.patch))))

/-- What `GlobalConfig._migrate_config` does: raise, return without
writing, or assign `self.version = __version__` — an assignment that goes
through `GlobalConfig.__setattr__` and therefore rewrites the whole
configuration document to disk. -/
inductive MigrateAction
  | fatal
  | noop
  | setVersionAndPersist (v : SemVer)
deriving DecidableEq, Repr

/-- `GlobalConfig._migrate_config` as a function of the stored version and
the running package version: an absent version falls through to the
assignment; a stored version above the running one raises `RuntimeError`;
an equal version returns before any write; an older version falls through
to the assignment, which persists the document. -/
def migrate_config (stored : Option SemVer) (curr : SemVer) : MigrateAction :=
  match stored with
  | none => .setVersionAndPersist curr
  | some v =>
    if semverLt curr v then .fatal
    else if v = curr then .noop
    else .setVersionAndPersist curr

/-- The backend-type tag of a profile (`zenml.enums.StoreType`; the enum
module is not among the analysed sources). -/
inductive StoreType
  | localType
  | sqlType
deriving DecidableEq, Repr

/-- `ConfigProfile`: name, optional backend address, backend-type tag. -/
structure ConfigProfile where
  name : String
  service_url : Option String := none
  store_type : StoreType := .localType
deriving DecidableEq, Repr

/-- The profile-related part of the `GlobalConfig` document: the active
profile name and the name-indexed profile map. -/
structure ProfilesState where
  active_profile_name : Option String
  profiles : List (String × ConfigProfile)
deriving DecidableEq, Repr

/-- `GlobalConfig.add_or_update_profile`: copy the profile, bind it to this
config, initialize its directory when the name is new (a filesystem side
effect), store it under its name and persist. -/
def add_or_update_profile (g : ProfilesState) (p : ConfigProfile) :
    ProfilesState :=
  { g with profiles := upsertKey g.profiles p.name p }

/-- `GlobalConfig.activate_profile`: `KeyError` when the name is not in the
profile map, else set the active profile name (persisted on assignment). -/
def activate_profile (g : ProfilesState) (name : String) :
    Except Err Unit × ProfilesState :=
  if (findKey g.profiles name).isSome then
    (.ok (), { g with active_profile_name := some name })
  else (.error .keyError, g)

/-- `GlobalConfig.delete_profile`: `ValueError` when the name is not in the
profile map; otherwise remove the entry, clean up the profile's directory
and persist.  The active-profile pointer is not touched. -/
def delete_profile (g : ProfilesState) (name : String) :
    Except Err Unit × ProfilesState :=
  if (findKey g.profiles name).isSome then
    (.ok (), { g with profiles := removeKey g.profiles name })
  else (.error .valueError, g)

/-- The invariant of spec §3: the active profile name, when set, resolves
in the profile map. -/
def activeResolves (g : ProfilesState) : Bool :=
  match g.active_profile_name with
  | none => true
  | some a => (findKey g.profiles a).isSome

/-! ## `GlobalConfig.__getattribute__` (environment override) -/

/-- The non-internal (not underscore-prefixed) fields of the
`GlobalConfig` document. -/
inductive GField
  | user_id
  | analytics_opt_in
  | version
  | active_profile_name
deriving DecidableEq, Repr

/-- A field value: uuid-as-string, boolean, or optional string. -/
inductive GValue
  | str (s : String)
  | bool (b : Bool)
  | optStr (o : Option String)
deriving DecidableEq, Repr

/-- The `GlobalConfig` document's non-internal fields. -/
structure GDoc where
  user_id : String
  analytics_opt_in : Bool
  version : Option String
  active_profile_name : Option String
deriving DecidableEq, Repr

/-- Whether pydantic assignment to the field is allowed: `user_id` is
declared with `allow_mutation=False`, all other fields are mutable. -/
def GField.allowMutation : GField → Bool
  | .user_id => false
  | _ => true

/-- Read a field of the document. -/
def GField.get (f : GField) (d : GDoc) : GValue :=
  match f with
  | .user_id => .str d.user_id
  | .analytics_opt_in => .bool d.analytics_opt_in
  | .version => .optStr d.version
  | .active_profile_name => .optStr d.active_profile_name

/-- Write a field of the document with a value of its kind (a value of the
wrong kind never arises: assignments come from `parse` or from a prior
`get`). -/
def GField.set (f : GField) (v : GValue) (d : GDoc) : GDoc :=
  match f, v with
  | .user_id, .str s => { d with user_id := s }
  | .analytics_opt_in, .bool b => { d with analytics_opt_in := b }
  | .version, .optStr o => { d with version := o }
  | .active_profile_name, .optStr o => { d with active_profile_name := o }
  | _, _ => d

/-- Modelled from the spec: pydantic's conversion of an environment string
to the field's declared type ("if present and convertible to the field's
type"); what the embedded code depends on is only whether conversion
succeeds.  A `user_id` string of UUID shape converts; booleans accept the
usual spellings; the optional string fields accept any string. -/
def GField.parse : GField → String → Option GValue
  | .user_id, r => if r.length = 36 then some (.str r) else none
  | .analytics_opt_in, r =>
    if r = "True" ∨ r = "true" ∨ r = "1" then some (.bool true)
    else if r = "False" ∨ r = "false" ∨ r = "0" then some (.bool false)
    else none
  | .version, r => some (.optStr (some r))
  | .active_profile_name, r => some (.optStr (some r))

/-- `GlobalConfig.__getattribute__` for a non-internal field: read the
stored value; look up `ZENML_` + upper-cased field name in the
environment; when present, assign it through pydantic's validating
`__setattr__` (raising `TypeError` for the immutable `user_id` and
`ValidationError` when conversion fails — both caught, falling back to
the stored value), read the converted value back, restore the stored
value, and return the converted value.  The `_write_config`-triggering
`GlobalConfig.__setattr__` is bypassed (`super().__setattr__`), so the
persisted document never changes.  Returns (result, in-memory document
after the read, persisted document after the read). -/
def getattribute (d : GDoc) (persisted : GDoc) (env : GField → Option String)
    (f : GField) : GValue × GDoc × GDoc :=
  let value := f.get d
  match env f with
  | none => (value, d, persisted)
  | some raw =>
    if f.allowMutation then
      match f.parse raw with
      | none => (value, d, persisted)
      | some v =>
        let d1 := f.set v d
        let rv := f.get d1
        let d2 := f.set value d1
        (rv, d2, persisted)
    else (value, d, persisted)

deriving instance DecidableEq for Except

/-! ## Lemmas about the Local backend's registration path -/

/-- The Local backend can serve `_get_component_flavor_and_config` for
(type, name): registry entry and payload file both present. -/
def fetchOk (s : LocalStore) (t : StackComponentType) (n : String) : Bool :=
  (findComp s.stack_components t n).isSome &&
    (findComp s.component_files t n).isSome

theorem localGetFlavorConfig_ok_of_fetchOk {s : LocalStore}
    {t : StackComponentType} {n : String} (h : fetchOk s t n = true) :
    ∃ fc, localGetFlavorConfig s t n = .ok fc := by
  unfold fetchOk at h
  rw [Bool.and_eq_true] at h
  obtain ⟨h1, h2⟩ := h
  unfold localGetFlavorConfig
  cases hr : findComp s.stack_components t n with
  | none => rw [hr] at h1; simp at h1
  | some fl =>
    cases hf : findComp s.component_files t n with
    | none => rw [hf] at h2; simp at h2
    | some pl => exact ⟨(fl, pl), rfl⟩

theorem fetchOk_of_localGetFlavorConfig_ok {s : LocalStore}
    {t : StackComponentType} {n : String} {fc : String × String}
    (h : localGetFlavorConfig s t n = .ok fc) : fetchOk s t n = true := by
  unfold localGetFlavorConfig at h
  unfold fetchOk
  cases hr : findComp s.stack_components t n with
  | none => rw [hr] at h; exact absurd h (by simp)
  | some fl =>
    cases hf : findComp s.component_files t n with
    | none => rw [hr, hf] at h; exact absurd h (by simp)
    | some pl => simp

theorem get_stack_component_ok_of_fetchOk {s : LocalStore}
    {t : StackComponentType} {n : String} (h : fetchOk s t n = true) :
    ∃ c, get_stack_component LocalPrims s t n = .ok c := by
  obtain ⟨fc, hfc⟩ := localGetFlavorConfig_ok_of_fetchOk h
  have hgc : get_stack_component LocalPrims s t n = .ok { type := t, flavor := fc.1, name := n, uuid := uuid_of_payload fc.2, config := fc.2 } := by
    simp [get_stack_component, LocalPrims, hfc]
  exact ⟨_, hgc⟩

theorem fetchOk_of_get_stack_component_ok {s : LocalStore}
    {t : StackComponentType} {n : String} {c : StackComponentConfiguration}
    (h : get_stack_component LocalPrims s t n = .ok c) :
    fetchOk s t n = true := by
  unfold get_stack_component at h
  cases hfc : LocalPrims.get_component_flavor_and_config s t n with
  | error e => rw [hfc] at h; exact absurd h (by simp)
  | ok fc => exact fetchOk_of_localGetFlavorConfig_ok hfc

/-- Registering a component does not touch the stacks map. -/
theorem localRegisterComponent_stackMap (s : LocalStore)
    (c : StackComponentConfiguration) :
    (localRegisterComponent s c).2.stackMap = s.stackMap := by
  unfold localRegisterComponent
  cases findComp s.stack_components c.type c.name <;> rfl

/-- Registering a component preserves the fetchability of every component
that was fetchable before. -/
theorem localRegisterComponent_fetchOk_mono (s : LocalStore)
    (c : StackComponentConfiguration) (t : StackComponentType) (n : String)
    (h : fetchOk s t n = true) :
    fetchOk (localRegisterComponent s c).2 t n = true := by
  unfold localRegisterComponent
  cases hf : findComp s.stack_components c.type c.name with
  | some _ => exact h
  | none =>
    by_cases hk : t = c.type ∧ n = c.name
    · unfold fetchOk at h
      rw [hk.1, hk.2, hf] at h
      simp at h
    · unfold fetchOk at h ⊢
      simp only
      rw [findComp_upsertComp_ne _ _ _ _ _ _ hk,
        findComp_upsertComp_ne _ _ _ _ _ _ hk]
      exact h

/-- A successful low-level registration makes its component fetchable. -/
theorem localRegisterComponent_fetchOk_self (s : LocalStore)
    (c : StackComponentConfiguration) (u : Unit) (s1 : LocalStore)
    (h : localRegisterComponent s c = (.ok u, s1)) :
    fetchOk s1 c.type c.name = true := by
  unfold localRegisterComponent at h
  cases hf : findComp s.stack_components c.type c.name with
  | some _ => rw [hf] at h; exact absurd h (by simp)
  | none =>
    rw [hf] at h
    cases h
    unfold fetchOk
    simp only
    rw [findComp_upsertComp_self, findComp_upsertComp_self]
    rfl

/-- `__check_component` does not touch the stacks map. -/
theorem check_component_stackMap (c : StackComponentConfiguration)
    (s : LocalStore) :
    (check_component LocalPrims c s).2.stackMap = s.stackMap := by
  unfold check_component
  cases hg : get_stack_component LocalPrims s c.type c.name with
  | ok existing =>
    by_cases hu : existing.uuid ≠ c.uuid
    · simp [hu]
    · simp [hu]
  | error e =>
    have hm := localRegisterComponent_stackMap s c
    simp only [LocalPrims]
    cases hr : localRegisterComponent s c with
    | mk r s1 =>
      rw [hr] at hm
      cases e <;> cases r <;> simp_all

/-- `__check_component` preserves fetchability. -/
theorem check_component_fetchOk_mono (c : StackComponentConfiguration)
    (s : LocalStore) (t : StackComponentType) (n : String)
    (h : fetchOk s t n = true) :
    fetchOk (check_component LocalPrims c s).2 t n = true := by
  unfold check_component
  cases hg : get_stack_component LocalPrims s c.type c.name with
  | ok existing =>
    by_cases hu : existing.uuid ≠ c.uuid
    · simpa [hu] using h
    · simpa [hu] using h
  | error e =>
    have hm := localRegisterComponent_fetchOk_mono s c t n h
    simp only [LocalPrims]
    cases hr : localRegisterComponent s c with
    | mk r s1 =>
      rw [hr] at hm
      cases e <;> cases r <;> simp_all

/-- A successful `__check_component` leaves its component fetchable. -/
theorem check_component_ok_fetchOk (c : StackComponentConfiguration)
    (s s1 : LocalStore) (p : StackComponentType × String)
    (h : check_component LocalPrims c s = (.ok p, s1)) :
    fetchOk s1 c.type c.name = true := by
  unfold check_component at h
  cases hg : get_stack_component LocalPrims s c.type c.name with
  | ok existing =>
    rw [hg] at h
    dsimp only at h
    by_cases hu : existing.uuid ≠ c.uuid
    · rw [if_pos hu] at h
      exact absurd h (by simp)
    · rw [if_neg hu] at h
      cases h
      exact fetchOk_of_get_stack_component_ok hg
  | error e =>
    rw [hg] at h
    cases e with
    | keyError =>
      simp only [LocalPrims] at h
      cases hr : localRegisterComponent s c with
      | mk r s1' =>
        rw [hr] at h
        cases r with
        | ok u =>
          cases h
          exact localRegisterComponent_fetchOk_self s c u _ hr
        | error e1 => exact absurd h (by simp)
    | stackExists => exact absurd h (by simp)
    | componentExists => exact absurd h (by simp)
    | valueError => exact absurd h (by simp)
    | runtimeError => exact absurd h (by simp)
    | ioError => exact absurd h (by simp)
    | integrityError => exact absurd h (by simp)
    | noResultFound => exact absurd h (by simp)

/-- A successful `__check_component` returns the component's (type, name). -/
theorem check_component_ok_pair (c : StackComponentConfiguration)
    (s s1 : LocalStore) (p : StackComponentType × String)
    (h : check_component LocalPrims c s = (.ok p, s1)) :
    p = (c.type, c.name) := by
  unfold check_component at h
  cases hg : get_stack_component LocalPrims s c.type c.name with
  | ok existing =>
    rw [hg] at h
    dsimp only at h
    by_cases hu : existing.uuid ≠ c.uuid
    · rw [if_pos hu] at h
      exact absurd h (by simp)
    · rw [if_neg hu] at h
      cases h
      rfl
  | error e =>
    rw [hg] at h
    cases e with
    | keyError =>
      simp only [LocalPrims] at h
      cases hr : localRegisterComponent s c with
      | mk r s1' =>
        rw [hr] at h
        cases r with
        | ok u => cases h; rfl
        | error e1 => exact absurd h (by simp)
    | stackExists => exact absurd h (by simp)
    | componentExists => exact absurd h (by simp)
    | valueError => exact absurd h (by simp)
    | runtimeError => exact absurd h (by simp)
    | ioError => exact absurd h (by simp)
    | integrityError => exact absurd h (by simp)
    | noResultFound => exact absurd h (by simp)

/-- The component-check pass does not touch the stacks map, whatever its
outcome. -/
theorem check_components_stackMap (l : List StackComponentConfiguration)
    (s : LocalStore) :
    (check_components LocalPrims l s).2.stackMap = s.stackMap := by
  induction l generalizing s with
  | nil => rfl
  | cons c rest ih =>
    unfold check_components
    have hc := check_component_stackMap c s
    cases hcc : check_component LocalPrims c s with
    | mk r s1 =>
      rw [hcc] at hc
      cases r with
      | ok p =>
        have hr := ih s1
        cases hcr : check_components LocalPrims rest s1 with
        | mk r2 s2 =>
          rw [hcr] at hr
          cases r2 <;> simp_all
      | error e => simp_all

/-- The component-check pass preserves fetchability. -/
theorem check_components_fetchOk_mono (l : List StackComponentConfiguration)
    (s : LocalStore) (t : StackComponentType) (n : String)
    (h : fetchOk s t n = true) :
    fetchOk (check_components LocalPrims l s).2 t n = true := by
  induction l generalizing s with
  | nil => exact h
  | cons c rest ih =>
    unfold check_components
    have hc := check_component_fetchOk_mono c s t n h
    cases hcc : check_component LocalPrims c s with
    | mk r s1 =>
      rw [hcc] at hc
      cases r with
      | ok p =>
        have hr := ih s1 hc
        cases hcr : check_components LocalPrims rest s1 with
        | mk r2 s2 =>
          rw [hcr] at hr
          cases r2 <;> simp_all
      | error e => simp_all

/-- A successful component-check pass returns exactly the components'
(type, name) pairs, in order. -/
theorem check_components_ok_pairs (l : List StackComponentConfiguration)
    (s s1 : LocalStore) (ps : List (StackComponentType × String))
    (h : check_components LocalPrims l s = (.ok ps, s1)) :
    ps = l.map (fun c => (c.type, c.name)) := by
  induction l generalizing s ps with
  | nil =>
    unfold check_components at h
    cases h
    rfl
  | cons c rest ih =>
    unfold check_components at h
    cases hcc : check_component LocalPrims c s with
    | mk r s' =>
      rw [hcc] at h
      cases r with
      | ok p =>
        dsimp only at h
        cases hcr : check_components LocalPrims rest s' with
        | mk r2 s2 =>
          rw [hcr] at h
          cases r2 with
          | ok ps' =>
            cases h
            have := ih s' ps' hcr
            have hp := check_component_ok_pair c s s' p hcc
            simp [hp, this]
          | error e => exact absurd h (by simp)
      | error e => exact absurd h (by simp)

/-- After a successful component-check pass every checked component is
fetchable. -/
theorem check_components_ok_fetchOk (l : List StackComponentConfiguration)
    (s s1 : LocalStore) (ps : List (StackComponentType × String))
    (h : check_components LocalPrims l s = (.ok ps, s1)) :
    ∀ c ∈ l, fetchOk s1 c.type c.name = true := by
  induction l generalizing s ps with
  | nil => intro c hc; exact absurd hc (by simp)
  | cons c rest ih =>
    unfold check_components at h
    cases hcc : check_component LocalPrims c s with
    | mk r s' =>
      rw [hcc] at h
      cases r with
      | ok p =>
        dsimp only at h
        cases hcr : check_components LocalPrims rest s' with
        | mk r2 s2 =>
          rw [hcr] at h
          cases r2 with
          | ok ps' =>
            cases h
            intro d hd
            rcases List.mem_cons.mp hd with hd1 | hd2
            · subst hd1
              have hfo := check_component_ok_fetchOk d s s' p hcc
              have := check_components_fetchOk_mono rest s' d.type d.name hfo
              rw [hcr] at this
              exact this
            · exact ih s' ps' hcr d hd2
          | error e => exact absurd h (by simp)
      | error e => exact absurd h (by simp)

/-- A failing `register_stack` never changes the stacks map: every raise
happens before `_create_stack`. -/
theorem register_stack_error_stackMap (st : StackWrapper) (s : LocalStore)
    (e : Err) (s1 : LocalStore)
    (h : register_stack LocalPrims st s = (.error e, s1)) :
    s1.stackMap = s.stackMap := by
  unfold register_stack at h
  cases hg : get_stack LocalPrims s st.name with
  | ok w =>
    rw [hg] at h
    dsimp only at h
    cases h
    rfl
  | error e0 =>
    rw [hg] at h
    have hsm := check_components_stackMap st.components s
    cases e0 with
    | keyError =>
      dsimp only at h
      cases hcc : check_components LocalPrims st.components s with
      | mk r s' =>
        rw [hcc] at hsm
        rw [hcc] at h
        cases r with
        | ok pairs =>
          dsimp only at h
          simp only [LocalPrims, localCreateStack] at h
          exact absurd h (by simp)
        | error e1 =>
          cases h
          exact hsm
    | stackExists => cases h; rfl
    | componentExists => cases h; rfl
    | valueError => cases h; rfl
    | runtimeError => cases h; rfl
    | ioError => cases h; rfl
    | integrityError => cases h; rfl
    | noResultFound => cases h; rfl

/-- A successful `register_stack` stores the stack's type-to-name mapping
under the stack's name and leaves every component of the stack
registered and fetchable. -/
theorem register_stack_ok_stored (st : StackWrapper) (s : LocalStore)
    (m : List (StackComponentType × String)) (s1 : LocalStore)
    (h : register_stack LocalPrims st s = (.ok m, s1)) :
    findKey s1.stackMap st.name =
      some (mkStackConfiguration
        (st.components.map (fun c => (c.type, c.name)))) ∧
    ∀ c ∈ st.components, fetchOk s1 c.type c.name = true := by
  unfold register_stack at h
  cases hg : get_stack LocalPrims s st.name with
  | ok w =>
    rw [hg] at h
    exact absurd h (by simp)
  | error e0 =>
    rw [hg] at h
    cases e0 with
    | keyError =>
      dsimp only at h
      cases hcc : check_components LocalPrims st.components s with
      | mk r s' =>
        rw [hcc] at h
        cases r with
        | ok pairs =>
          dsimp only at h
          simp only [LocalPrims, localCreateStack] at h
          cases h
          have hpairs := check_components_ok_pairs st.components s s' pairs hcc
          constructor
          · rw [findKey_upsertKey_self, hpairs]
          · intro c hc
            exact check_components_ok_fetchOk st.components s s' pairs hcc c hc
        | error e1 => exact absurd h (by simp)
    | stackExists => exact absurd h (by simp)
    | componentExists => exact absurd h (by simp)
    | valueError => exact absurd h (by simp)
    | runtimeError => exact absurd h (by simp)
    | ioError => exact absurd h (by simp)
    | integrityError => exact absurd h (by simp)
    | noResultFound => exact absurd h (by simp)

theorem getComp_setComp (cfg : StackConfiguration) (t t' : StackComponentType)
    (v : Option String) :
    getComp (setComp cfg t v) t' = if t' = t then v else getComp cfg t' := by
  cases t <;> cases t' <;> simp [getComp, setComp]

/-- A slot filled in a configuration built from pairs comes from one of the
pairs. -/
theorem getComp_foldl_mem (pairs : List (StackComponentType × String))
    (acc : StackConfiguration) (t : StackComponentType) (n : String)
    (h : getComp (pairs.foldl (fun cfg p => setComp cfg p.1 (some p.2)) acc) t
        = some n) :
    (t, n) ∈ pairs ∨ getComp acc t = some n := by
  induction pairs generalizing acc with
  | nil => exact .inr h
  | cons p rest ih =>
    rcases ih (setComp acc p.1 (some p.2)) h with hmem | hacc
    · exact .inl (List.mem_cons_of_mem p hmem)
    · rw [getComp_setComp] at hacc
      by_cases ht : t = p.1
      · rw [if_pos ht] at hacc
        left
        have hp : (t, n) = p := by
          cases hacc
          rw [ht]
        rw [hp]
        exact List.mem_cons_self p rest
      · rw [if_neg ht] at hacc
        exact .inr hacc

theorem getComp_mkStackConfiguration_mem
    (pairs : List (StackComponentType × String)) (t : StackComponentType)
    (n : String) (h : getComp (mkStackConfiguration pairs) t = some n) :
    (t, n) ∈ pairs := by
  rcases getComp_foldl_mem pairs {} t n h with hmem | hacc
  · exact hmem
  · cases t <;> exact absurd hacc (by simp [getComp])

/-- When every slot of a configuration is fetchable, the component
traversal of `_stack_from_configuration` succeeds. -/
theorem stack_components_of_ok (s : LocalStore) (conf : StackConfiguration)
    (l : List StackComponentType)
    (hok : ∀ t n, getComp conf t = some n → fetchOk s t n = true) :
    ∃ cs, stack_components_of LocalPrims s conf l = .ok cs := by
  induction l with
  | nil => exact ⟨[], rfl⟩
  | cons t rest ih =>
    unfold stack_components_of
    cases hc : getComp conf t with
    | none => exact ih
    | some n =>
      dsimp only
      obtain ⟨c, hgc⟩ := get_stack_component_ok_of_fetchOk (hok t n hc)
      rw [hgc]
      obtain ⟨cs, hcs⟩ := ih
      rw [hcs]
      exact ⟨c :: cs, rfl⟩

/-- After a successful `register_stack`, `get_stack` finds the stack. -/
theorem get_stack_after_register (st : StackWrapper) (s : LocalStore)
    (m : List (StackComponentType × String)) (s1 : LocalStore)
    (h : register_stack LocalPrims st s = (.ok m, s1)) :
    ∃ w, get_stack LocalPrims s1 st.name = .ok w := by
  obtain ⟨hfind, hfetch⟩ := register_stack_ok_stored st s m s1 h
  have hok : ∀ t n,
      getComp (mkStackConfiguration
        (st.components.map (fun c => (c.type, c.name)))) t = some n →
      fetchOk s1 t n = true := by
    intro t n hc
    have hmem := getComp_mkStackConfiguration_mem _ t n hc
    obtain ⟨c, hcmem, hceq⟩ := List.mem_map.mp hmem
    have ht : c.type = t := congrArg Prod.fst hceq
    have hn : c.name = n := congrArg Prod.snd hceq
    rw [← ht, ← hn]
    exact hfetch c hcmem
  obtain ⟨cs, hcs⟩ := stack_components_of_ok s1 _ StackComponentType.all hok
  refine ⟨{ name := st.name, components := cs }, ?_⟩
  have hconf : LocalPrims.get_stack_configuration s1 st.name =
      .ok (mkStackConfiguration
        (st.components.map (fun c => (c.type, c.name)))) := by
    simp [LocalPrims, localGetStackConfiguration, hfind]
  unfold get_stack
  rw [hconf]
  dsimp only
  unfold stack_from_configuration
  rw [hcs]

/-! ## Claim theorems -/

/-- Claim C4 (confirmed): for every store state of any backend in which the
active stack name is configured (the active-name read succeeds),
`deregister_stack` called with that active name fails with
InvariantViolation (`ValueError`) and returns the state unchanged, so the
set of registered stacks is untouched. -/
theorem deregister_active_stack_fails_unchanged {σ : Type}
    (P : StorePrims σ) (s : σ) (a : String)
    (h : P.active_stack_name s = .ok a) :
    deregister_stack P a s = (.error .valueError, s) := by
  unfold deregister_stack
  rw [h]
  dsimp only
  rw [if_pos rfl]

/-- Witness for C4 at a concrete Local store. -/
theorem deregister_active_stack_fails_unchanged_witness :
    deregister_stack LocalPrims "x"
        (LocalStore.mk (some "x") [] [] []) =
      (.error .valueError, LocalStore.mk (some "x") [] [] []) :=
  deregister_active_stack_fails_unchanged LocalPrims
    (LocalStore.mk (some "x") [] [] []) "x" (by decide)

/-- Claim C5 (confirmed): for every store state of any backend and every
component (type, name) referenced by at least one registered stack's
configuration, `deregister_stack_component` fails with InvariantViolation
(`ValueError`) and returns the state unchanged — the error is raised
before the deletion primitive is ever invoked. -/
theorem deregister_referenced_component_fails_unchanged {σ : Type}
    (P : StorePrims σ) (s : σ) (t : StackComponentType) (n : String)
    (h : ∃ p ∈ P.stack_configurations s, containsComponent p.2 t n = true) :
    deregister_stack_component P t n s = (.error .valueError, s) := by
  unfold deregister_stack_component
  rw [if_pos]
  obtain ⟨p, hp, hc⟩ := h
  exact List.any_eq_true.mpr ⟨p, hp, hc⟩

/-- Witness for C5 at a concrete Local store with one stack referencing
the component. -/
theorem deregister_referenced_component_fails_unchanged_witness :
    deregister_stack_component LocalPrims .orchestrator "o1"
        (LocalStore.mk none
          [("s1", { orchestrator := some "o1" })]
          [(.orchestrator, "o1", "fl")] [(.orchestrator, "o1", "U")]) =
      (.error .valueError,
        LocalStore.mk none
          [("s1", { orchestrator := some "o1" })]
          [(.orchestrator, "o1", "fl")] [(.orchestrator, "o1", "U")]) :=
  deregister_referenced_component_fails_unchanged LocalPrims _ .orchestrator
    "o1" ⟨("s1", { orchestrator := some "o1" }), by decide, by decide⟩

/-- Claim C10 (confirmed): in both backends, when no active stack name is
configured, `deregister_stack` raises `RuntimeError` for every name —
the active-name read happens before the deletion — and the state is
returned unchanged. -/
theorem deregister_stack_unset_active_raises :
    (∀ (s : LocalStore) (name : String), s.active_stack_name = none →
      deregister_stack LocalPrims name s = (.error .runtimeError, s)) ∧
    (∀ (s : SqlStore) (name : String), s.active_stack = none →
      deregister_stack SqlPrims name s = (.error .runtimeError, s)) := by
  constructor
  · intro s name h
    unfold deregister_stack
    have ha : LocalPrims.active_stack_name s = .error .runtimeError := by
      simp [LocalPrims, localActiveStackName, h]
    rw [ha]
  · intro s name h
    unfold deregister_stack
    have ha : SqlPrims.active_stack_name s = .error .runtimeError := by
      simp [SqlPrims, sqlActiveStackName, h]
    rw [ha]

/-- Witness for C10: a Local store holding the stack and no active name
still raises. -/
theorem deregister_stack_unset_active_raises_witness :
    deregister_stack LocalPrims "s1"
        (LocalStore.mk none [("s1", {})] [] []) =
      (.error .runtimeError, LocalStore.mk none [("s1", {})] [] []) ∧
    deregister_stack SqlPrims "s1" (SqlStore.mk ["s1"] [] [] none) =
      (.error .runtimeError, SqlStore.mk ["s1"] [] [] none) :=
  ⟨deregister_stack_unset_active_raises.1
      (LocalStore.mk none [("s1", {})] [] []) "s1" rfl,
    deregister_stack_unset_active_raises.2
      (SqlStore.mk ["s1"] [] [] none) "s1" rfl⟩

/-- A SQL store with one stack row, one component row and the stack's join
row; a different stack is active. -/
def sqlJoinStore : SqlStore :=
  { zen_stacks := ["s1"],
    zen_components := [(.orchestrator, "c1", "fl", "U1")],
    zen_stack_definitions := [("s1", .orchestrator, "c1")],
    active_stack := some "s2" }

/-- Claim C3 (code_bug): `SqlStackStore._delete_stack` deletes only the
`ZenStack` row; the stack's `ZenStackDefinition` join rows survive the
transaction, although the spec requires them to be deleted in the same
transaction.  Evaluated at a concrete store: deregistering "s1" succeeds
and leaves its join row in place. -/
theorem sql_deregister_stack_leaves_join_rows :
    deregister_stack SqlPrims "s1" sqlJoinStore =
      (.ok (), { sqlJoinStore with zen_stacks := [] }) ∧
    ({ sqlJoinStore with zen_stacks := [] } : SqlStore).zen_stack_definitions
      = [("s1", .orchestrator, "c1")] := by
  constructor
  · decide
  · decide

/-- The strict order on parsed versions is irreflexive. -/
theorem semverLt_irrefl (a : SemVer) : semverLt a a = false := by
  cases a
  simp [semverLt]

/-- The strict order on parsed versions is asymmetric. -/
theorem semverLt_asymm (a b : SemVer) (h : semverLt a b = true) :
    semverLt b a = false := by
  cases a
  cases b
  simp [semverLt] at h ⊢
  omega

theorem semverLt_ne (a b : SemVer) (h : semverLt a b = true) : a ≠ b := by
  intro he
  rw [he, semverLt_irrefl] at h
  exact absurd h (by simp)

/-- Claim C7 (confirmed): `GlobalConfig._migrate_config` — an absent
stored version adopts the running version (and persists it); a stored
version above the running one is fatal (`RuntimeError`); an equal version
is a no-op (returns before any write); an older stored version is
rewritten to the running version and the document persisted. -/
theorem migrate_config_version_cases (curr v : SemVer) :
    migrate_config none curr = .setVersionAndPersist curr ∧
    (semverLt curr v = true → migrate_config (some v) curr = .fatal) ∧
    (v = curr → migrate_config (some v) curr = .noop) ∧
    (semverLt v curr = true →
      migrate_config (some v) curr = .setVersionAndPersist curr) := by
  refine ⟨rfl, ?_, ?_, ?_⟩
  · intro h
    simp [migrate_config, h]
  · intro h
    subst h
    simp [migrate_config, semverLt_irrefl]
  · intro h
    have h1 : semverLt curr v = false := semverLt_asymm v curr h
    have h2 : v ≠ curr := semverLt_ne v curr h
    simp [migrate_config, h1, h2]

/-- Witness for C7 at concrete versions 0.6.2 / 0.7.0 / 0.8.0. -/
theorem migrate_config_version_cases_witness :
    migrate_config (some (SemVer.mk 0 6 2)) (SemVer.mk 0 7 0) =
      .setVersionAndPersist (SemVer.mk 0 7 0) ∧
    migrate_config (some (SemVer.mk 0 8 0)) (SemVer.mk 0 7 0) = .fatal ∧
    migrate_config (some (SemVer.mk 0 7 0)) (SemVer.mk 0 7 0) = .noop :=
  ⟨(migrate_config_version_cases (SemVer.mk 0 7 0) (SemVer.mk 0 6 2)).2.2.2
      (by decide),
    (migrate_config_version_cases (SemVer.mk 0 7 0) (SemVer.mk 0 8 0)).2.1
      (by decide),
    (migrate_config_version_cases (SemVer.mk 0 7 0) (SemVer.mk 0 7 0)).2.2.1
      rfl⟩

/-- Claim C6 (confirmed): two `register_stack` calls with the same stack
name never both succeed — after a successful registration, a second call
under the same name fails with Conflict (`StackExistsError`) and leaves
the store unchanged. -/
theorem register_stack_same_name_second_conflicts (st st2 : StackWrapper)
    (s : LocalStore) (m : List (StackComponentType × String))
    (s1 : LocalStore) (h : register_stack LocalPrims st s = (.ok m, s1))
    (hname : st2.name = st.name) :
    register_stack LocalPrims st2 s1 = (.error .stackExists, s1) := by
  obtain ⟨w, hw⟩ := get_stack_after_register st s m s1 h
  unfold register_stack
  rw [hname, hw]

/-- Witness for C6: registering "a" twice from the empty store. -/
theorem register_stack_same_name_second_conflicts_witness :
    register_stack LocalPrims
        (StackWrapper.mk "a"
          [StackComponentConfiguration.mk .orchestrator "fl" "o1" "U" "U"])
        (LocalStore.mk none
          [("a", { orchestrator := some "o1" })]
          [(.orchestrator, "o1", "fl")] [(.orchestrator, "o1", "U")]) =
      (.error .stackExists,
        LocalStore.mk none
          [("a", { orchestrator := some "o1" })]
          [(.orchestrator, "o1", "fl")] [(.orchestrator, "o1", "U")]) :=
  register_stack_same_name_second_conflicts
    (StackWrapper.mk "a"
      [StackComponentConfiguration.mk .orchestrator "fl" "o1" "U" "U"])
    (StackWrapper.mk "a"
      [StackComponentConfiguration.mk .orchestrator "fl" "o1" "U" "U"])
    (LocalStore.mk none [] [] [])
    [(.orchestrator, "fl")]
    (LocalStore.mk none
      [("a", { orchestrator := some "o1" })]
      [(.orchestrator, "o1", "fl")] [(.orchestrator, "o1", "U")])
    (by decide) rfl

/-- A Local store already holding an orchestrator "c2" whose payload embeds
the token "OLD". -/
def preStore : LocalStore :=
  { active_stack_name := none, stackMap := [],
    stack_components := [(.orchestrator, "c2", "fl")],
    component_files := [(.orchestrator, "c2", "OLD")] }

/-- A stack whose first component "c1" is new and whose second component
"c2" collides with the existing record under a different token. -/
def twoCompStack : StackWrapper :=
  { name := "st",
    components :=
      [StackComponentConfiguration.mk .artifact_store "fl" "c1" "U1" "U1",
       StackComponentConfiguration.mk .orchestrator "fl" "c2" "NEW" "NEW"] }

/-- Claim C1 (counterexample): a failing `register_stack` is not atomic on
the component table — the call fails with Conflict
(`StackComponentExistsError`) on the second component, yet the first,
newly registered component "c1" is observable afterwards (it was not
fetchable before), while no stack "st" was created. -/
theorem register_stack_partial_component_observable :
    (register_stack LocalPrims twoCompStack preStore).1 =
      .error .componentExists ∧
    fetchOk (register_stack LocalPrims twoCompStack preStore).2
      .artifact_store "c1" = true ∧
    fetchOk preStore .artifact_store "c1" = false ∧
    findKey (register_stack LocalPrims twoCompStack preStore).2.stackMap
      "st" = none := by
  refine ⟨?_, ?_, ?_, ?_⟩ <;> decide

/-- Claim C1 (amended, proved): a `register_stack` call is atomic on the
*stack* table — on any failure the stack map is unchanged (no partially
registered stack is observable) — and on success the stack's full
type-to-name mapping is stored and every component of the stack is
registered; components newly registered before a failing check, however,
may remain observable after a failure. -/
theorem register_stack_atomicity_amended (st : StackWrapper)
    (s : LocalStore) :
    (∀ e s1, register_stack LocalPrims st s = (.error e, s1) →
      s1.stackMap = s.stackMap) ∧
    (∀ m s1, register_stack LocalPrims st s = (.ok m, s1) →
      findKey s1.stackMap st.name =
        some (mkStackConfiguration
          (st.components.map (fun c => (c.type, c.name)))) ∧
      ∀ c ∈ st.components, fetchOk s1 c.type c.name = true) :=
  ⟨fun e s1 h => register_stack_error_stackMap st s e s1 h,
    fun m s1 h => register_stack_ok_stored st s m s1 h⟩

/-- Witness for the amended C1: a successful registration from the empty
store stores the mapping and the component; a failing registration leaves
the stack map empty. -/
theorem register_stack_atomicity_amended_witness :
    findKey
        (LocalStore.mk none
          [("a", mkStackConfiguration [(.orchestrator, "o1")])]
          [(.orchestrator, "o1", "fl")] [(.orchestrator, "o1", "U")]).stackMap
        "a" =
      some (mkStackConfiguration [(.orchestrator, "o1")]) ∧
    (register_stack LocalPrims twoCompStack preStore).2.stackMap =
      preStore.stackMap :=
  ⟨((register_stack_atomicity_amended
      (StackWrapper.mk "a"
        [StackComponentConfiguration.mk .orchestrator "fl" "o1" "U" "U"])
      (LocalStore.mk none [] [] [])).2
      [(.orchestrator, "fl")]
      (LocalStore.mk none
        [("a", mkStackConfiguration [(.orchestrator, "o1")])]
        [(.orchestrator, "o1", "fl")] [(.orchestrator, "o1", "U")])
      (by decide)).1,
    (register_stack_atomicity_amended twoCompStack preStore).1
      .componentExists (register_stack LocalPrims twoCompStack preStore).2
      (by decide)⟩

/-- A Local store already holding a secrets-manager component "vault":
registry entry with flavor "local" and payload embedding token "U1". -/
def vaultStore : LocalStore :=
  { active_stack_name := none, stackMap := [],
    stack_components := [(.secrets_manager, "vault", "local")],
    component_files := [(.secrets_manager, "vault", "U1")] }

/-- The same logical component, re-registered with the same token "U1". -/
def vaultComp : StackComponentConfiguration :=
  { type := .secrets_manager, flavor := "local", name := "vault",
    uuid := "U1", config := "U1" }

/-- Claim C2 (counterexample): re-registering a component under an
existing (type, name) through the component-registration operation
(`register_stack_component`) fails with Conflict even when the identity
token matches the existing record — the existing record's token is "U1"
and the re-registered component's token is "U1", yet the call raises
`StackComponentExistsError` instead of succeeding as a no-op. -/
theorem register_component_matching_token_conflicts :
    get_stack_component LocalPrims vaultStore .secrets_manager "vault" =
      .ok (StackComponentConfiguration.mk .secrets_manager "local" "vault"
        "U1" "U1") ∧
    vaultComp.uuid = "U1" ∧
    LocalPrims.register_stack_component vaultStore vaultComp =
      (.error .componentExists, vaultStore) := by
  refine ⟨?_, rfl, ?_⟩ <;> decide

/-- Claim C2 (amended, proved): on the shared `register_stack` path —
`__check_component`, identical for every backend — a component whose
(type, name) already has a record is a no-op success when the identity
tokens match and a Conflict (`StackComponentExistsError`) when they
differ, the store being returned unchanged in both cases; the direct
low-level `register_stack_component` primitive, by contrast, conflicts on
any duplicate (type, name). -/
theorem check_component_token_cases {σ : Type} (P : StorePrims σ) (s : σ)
    (c existing : StackComponentConfiguration)
    (h : get_stack_component P s c.type c.name = .ok existing) :
    (existing.uuid = c.uuid →
      check_component P c s = (.ok (c.type, c.name), s)) ∧
    (existing.uuid ≠ c.uuid →
      check_component P c s = (.error .componentExists, s)) := by
  constructor
  · intro hu
    unfold check_component
    rw [h]
    dsimp only
    rw [if_neg (by simp [hu])]
  · intro hu
    unfold check_component
    rw [h]
    dsimp only
    rw [if_pos hu]

/-- Witness for the amended C2 at the concrete store: matching token is a
no-op success; a differing token conflicts. -/
theorem check_component_token_cases_witness :
    check_component LocalPrims vaultComp vaultStore =
      (.ok (.secrets_manager, "vault"), vaultStore) ∧
    check_component LocalPrims
        (StackComponentConfiguration.mk .secrets_manager "local" "vault"
          "U2" "U2") vaultStore =
      (.error .componentExists, vaultStore) :=
  ⟨(check_component_token_cases LocalPrims vaultStore vaultComp
      (StackComponentConfiguration.mk .secrets_manager "local" "vault"
        "U1" "U1") (by decide)).1 rfl,
    (check_component_token_cases LocalPrims vaultStore
      (StackComponentConfiguration.mk .secrets_manager "local" "vault"
        "U2" "U2")
      (StackComponentConfiguration.mk .secrets_manager "local" "vault"
        "U1" "U1") (by decide)).2 (by decide)⟩

theorem findKey_isSome_upsertKey {α : Type} (l : List (String × α))
    (k k' : String) (v : α) (h : (findKey l k').isSome = true) :
    (findKey (upsertKey l k v) k').isSome = true := by
  by_cases hk : k' = k
  · subst hk
    rw [findKey_upsertKey_self]
    rfl
  · rw [findKey_upsertKey_ne l k k' v hk]
    exact h

theorem findKey_removeKey_ne {α : Type} (l : List (String × α))
    (k a : String) (h : a ≠ k) :
    findKey (removeKey l k) a = findKey l a := by
  induction l with
  | nil => rfl
  | cons e rest ih =>
    by_cases he : e.1 = k
    · have hrm : removeKey (e :: rest) k = removeKey rest k := by
        simp [removeKey, List.filter_cons, he]
      have hea : ¬ e.1 = a := by
        rw [he]
        exact fun hh => h hh.symm
      rw [hrm, ih]
      simp only [findKey]
      rw [if_neg hea]
    · have hrm : removeKey (e :: rest) k = e :: removeKey rest k := by
        simp [removeKey, List.filter_cons, he]
      rw [hrm]
      simp only [findKey]
      by_cases hea : e.1 = a
      · rw [if_pos hea, if_pos hea]
      · rw [if_neg hea, if_neg hea, ih]

/-- `add_or_update_profile` preserves resolution of the active name. -/
theorem add_or_update_profile_activeResolves (g : ProfilesState)
    (p : ConfigProfile) (h : activeResolves g = true) :
    activeResolves (add_or_update_profile g p) = true := by
  unfold activeResolves add_or_update_profile at *
  cases ha : g.active_profile_name with
  | none => rfl
  | some a =>
    rw [ha] at h
    exact findKey_isSome_upsertKey g.profiles p.name a p h

/-- Claim C8 (amended, proved): `add_or_update_profile` and a successful
`activate_profile` preserve (indeed establish) the invariant that the
active profile name resolves in the profile map, and `delete_profile` of a
profile other than the active one preserves it; deleting the active
profile is the one operation that does not. -/
theorem profile_ops_preserve_active_resolution (g : ProfilesState)
    (p : ConfigProfile) (name : String) :
    (activeResolves g = true →
      activeResolves (add_or_update_profile g p) = true) ∧
    (∀ g1, activate_profile g name = (.ok (), g1) →
      activeResolves g1 = true) ∧
    (∀ g1, activeResolves g = true → g.active_profile_name ≠ some name →
      delete_profile g name = (.ok (), g1) → activeResolves g1 = true) := by
  refine ⟨add_or_update_profile_activeResolves g p, ?_, ?_⟩
  · intro g1 h
    unfold activate_profile at h
    by_cases hm : (findKey g.profiles name).isSome = true
    · rw [if_pos hm] at h
      cases h
      unfold activeResolves
      exact hm
    · rw [if_neg hm] at h
      exact absurd h (by simp)
  · intro g1 hres hact h
    unfold delete_profile at h
    by_cases hm : (findKey g.profiles name).isSome = true
    · rw [if_pos hm] at h
      cases h
      unfold activeResolves at hres ⊢
      cases ha : g.active_profile_name with
      | none => rfl
      | some a =>
        rw [ha] at hres hact
        have hne : a ≠ name := fun hh => hact (by rw [hh])
        dsimp only
        rw [findKey_removeKey_ne g.profiles name a hne]
        exact hres
    · rw [if_neg hm] at h
      exact absurd h (by simp)

/-- Witness for the amended C8: activating an existing profile establishes
resolution; deleting a non-active profile preserves it. -/
theorem profile_ops_preserve_active_resolution_witness :
    activeResolves
        (ProfilesState.mk (some "default")
          [("default", ConfigProfile.mk "default" none .localType)]) =
      true ∧
    activeResolves
        (ProfilesState.mk (some "default")
          [("default", ConfigProfile.mk "default" none .localType)]) =
      true :=
  ⟨(profile_ops_preserve_active_resolution
      (ProfilesState.mk none
        [("default", ConfigProfile.mk "default" none .localType)])
      (ConfigProfile.mk "default" none .localType) "default").2.1
      (ProfilesState.mk (some "default")
        [("default", ConfigProfile.mk "default" none .localType)])
      (by decide),
    (profile_ops_preserve_active_resolution
      (ProfilesState.mk (some "default")
        [("default", ConfigProfile.mk "default" none .localType),
         ("p", ConfigProfile.mk "p" none .localType)])
      (ConfigProfile.mk "p" none .localType) "p").2.2
      (ProfilesState.mk (some "default")
        [("default", ConfigProfile.mk "default" none .localType)])
      (by decide) (by decide) (by decide)⟩

/-- The starting configuration of the counterexample: a "default" profile
exists and is active. -/
def defaultOnlyConfig : ProfilesState :=
  { active_profile_name := some "default",
    profiles := [("default", ConfigProfile.mk "default" none .localType)] }

/-- Claim C8 (counterexample): starting from a valid configuration, add a
profile "p", activate it, then delete it — every step succeeds, yet after
the deletion the active profile name is still "p" while "p" is gone from
the profile map: `delete_profile` does not preserve the invariant when
the deleted profile is the active one (no replacement is activated). -/
theorem delete_active_profile_breaks_invariant :
    activeResolves
        ((activate_profile
          (add_or_update_profile defaultOnlyConfig
            (ConfigProfile.mk "p" none .localType)) "p").2) = true ∧
    (activate_profile
        (add_or_update_profile defaultOnlyConfig
          (ConfigProfile.mk "p" none .localType)) "p").1 = .ok () ∧
    (delete_profile
        ((activate_profile
          (add_or_update_profile defaultOnlyConfig
            (ConfigProfile.mk "p" none .localType)) "p").2) "p").1 =
      .ok () ∧
    activeResolves
        ((delete_profile
          ((activate_profile
            (add_or_update_profile defaultOnlyConfig
              (ConfigProfile.mk "p" none .localType)) "p").2) "p").2) =
      false := by
  refine ⟨?_, ?_, ?_, ?_⟩ <;> decide

/-- A value obtained from a successful conversion reads back as written:
pydantic stores the converted value and the subsequent read returns it. -/
theorem get_set_of_parse (f : GField) (raw : String) (v : GValue) (d : GDoc)
    (h : f.parse raw = some v) : GField.get f (GField.set f v d) = v := by
  cases f <;> simp only [GField.parse] at h
  case user_id =>
    split at h
    · cases h
      rfl
    · exact absurd h (by simp)
  case analytics_opt_in =>
    split at h
    · cases h
      rfl
    · split at h
      · cases h
        rfl
      · exact absurd h (by simp)
  case version =>
    cases h
    rfl
  case active_profile_name =>
    cases h
    rfl

/-- Writing the previously read value back restores the document. -/
theorem set_restore_of_parse (f : GField) (raw : String) (v : GValue)
    (d : GDoc) (h : f.parse raw = some v) :
    GField.set f (GField.get f d) (GField.set f v d) = d := by
  cases f <;> simp only [GField.parse] at h
  case user_id =>
    split at h
    · cases h
      rfl
    · exact absurd h (by simp)
  case analytics_opt_in =>
    split at h
    · cases h
      rfl
    · split at h
      · cases h
        rfl
      · exact absurd h (by simp)
  case version =>
    cases h
    rfl
  case active_profile_name =>
    cases h
    rfl

/-- Claim C9 (amended, proved): reading a non-internal field returns the
stored value when the environment variable is absent or its value fails
conversion; when the variable is set to a convertible value and the field
is mutable, the read returns the environment value while both the
in-memory document and the persisted document are unchanged after the
read; for the immutable `user_id` field the environment value is ignored
and the stored value returned. -/
theorem getattribute_env_override_cases (d p : GDoc)
    (env : GField → Option String) (f : GField) :
    (env f = none → getattribute d p env f = (f.get d, d, p)) ∧
    (∀ raw, env f = some raw → f.parse raw = none →
      getattribute d p env f = (f.get d, d, p)) ∧
    (∀ raw v, env f = some raw → f.allowMutation = true →
      f.parse raw = some v → getattribute d p env f = (v, d, p)) ∧
    (∀ raw, env f = some raw → f.allowMutation = false →
      getattribute d p env f = (f.get d, d, p)) := by
  refine ⟨?_, ?_, ?_, ?_⟩
  · intro h
    simp [getattribute, h]
  · intro raw h hp
    cases hm : f.allowMutation <;> simp [getattribute, h, hp, hm]
  · intro raw v h hm hp
    simp only [getattribute, h, hm, if_true, hp]
    rw [get_set_of_parse f raw v d hp, set_restore_of_parse f raw v d hp]
  · intro raw h hm
    simp [getattribute, h, hm]

/-- Witness for the amended C9: an override of `version` is returned for
the read while leaving both documents unchanged. -/
theorem getattribute_env_override_cases_witness :
    getattribute (GDoc.mk "u" true (some "0.7.0") none)
        (GDoc.mk "u" true (some "0.7.0") none)
        (fun f => match f with
          | GField.version => some "0.8.0"
          | _ => none)
        .version =
      (.optStr (some "0.8.0"), GDoc.mk "u" true (some "0.7.0") none,
        GDoc.mk "u" true (some "0.7.0") none) :=
  (getattribute_env_override_cases (GDoc.mk "u" true (some "0.7.0") none)
      (GDoc.mk "u" true (some "0.7.0") none) _ .version).2.2.1
    "0.8.0" (.optStr (some "0.8.0")) rfl rfl rfl

/-- The stored configuration document of the C9 counterexample. -/
def storedDoc : GDoc :=
  { user_id := "11111111-1111-1111-1111-111111111111",
    analytics_opt_in := true, version := some "0.7.0",
    active_profile_name := none }

/-- An environment carrying a well-formed UUID override for `user_id`. -/
def uuidEnv : GField → Option String
  | .user_id => some "00000000-0000-0000-0000-000000000000"
  | _ => none

/-- Claim C9 (counterexample): with the environment variable for the
non-internal field `user_id` set to a value convertible to the field's
type (a well-formed UUID string), the read does not return the
environment value: `user_id` is declared `allow_mutation=False`, the
override assignment raises `TypeError`, and the read falls back to the
stored value. -/
theorem env_override_immutable_user_id_ignored :
    GField.parse .user_id "00000000-0000-0000-0000-000000000000" =
      some (.str "00000000-0000-0000-0000-000000000000") ∧
    (getattribute storedDoc storedDoc uuidEnv .user_id).1 =
      .str "11111111-1111-1111-1111-111111111111" ∧
    ("11111111-1111-1111-1111-111111111111" : String) ≠
      "00000000-0000-0000-0000-000000000000" := by
  refine ⟨?_, ?_, ?_⟩ <;> decide
